import Mathlib

/-!
Verification development for the bdat-rs toolset conversion core
(`toolset/src/convert/json.rs` and `toolset/src/convert/mod.rs`).

The Rust code is shallowly embedded: pure table/JSON transformations become
Lean functions, fallible code returns `Except`, and a process-terminating
fault (a Rust `panic` / `expect` / `unwrap` / `todo` / out-of-bounds index)
is distinguished from a recoverable `Result::Err` by the error constructor.
Types from the `bdat` codec crate (labels, value types, cells) and the
helper modules (`schema.rs`, `hash.rs`, `filter.rs`) are not part of the
sources under review; those are modelled from the specification and are
marked as such in their doc comments.
-/

namespace Bdat

/-- A JSON value, as produced by the serializer. Numbers are modelled as
integers (the claims under study involve no floating-point data). -/
inductive JValue
  | null
  | bool (b : Bool)
  | num (n : Int)
  | str (s : String)
  | arr (xs : List JValue)

/-- Modelled from the spec: a Label identifies a table or column, either an
exact string (`Unhashed`) or a 32-bit integer hash (`Hashed`). -/
inductive Label
  | Unhashed (s : String)
  | Hashed (h : Nat)
deriving DecidableEq

/-- Hex digit character for a value below 16 (lowercase, as in `08x`). -/
def hexChar (n : Nat) : Char :=
  if n < 10 then Char.ofNat (48 + n) else Char.ofNat (87 + n)

/-- Eight-digit lowercase hex rendering of a 32-bit hash. -/
def toHex8 (h : Nat) : String :=
  String.mk ((List.range 8).map (fun i => hexChar (h / 16 ^ (7 - i) % 16)))

/-- Numeric value of one hex digit character, if any. -/
def hexVal (c : Char) : Option Nat :=
  if 48 ≤ c.toNat ∧ c.toNat ≤ 57 then some (c.toNat - 48)
  else if 97 ≤ c.toNat ∧ c.toNat ≤ 102 then some (c.toNat - 87)
  else if 65 ≤ c.toNat ∧ c.toNat ≤ 70 then some (c.toNat - 55)
  else none

/-- Parse a string as a base-16 unsigned 32-bit integer, in the manner of
`u32::from_str_radix(s, 16)`: fails on an empty string, a non-hex digit,
or overflow. -/
def parseHexU32 (s : String) : Option Nat :=
  if s.isEmpty then none
  else
    match s.data.foldl
        (fun acc c =>
          match acc, hexVal c with
          | some a, some d => some (a * 16 + d)
          | _, _ => none)
        (some 0) with
    | some n => if n < 2 ^ 32 then some n else none
    | none => none

/-- Modelled from the spec: the default display of a label. An unhashed
label shows its exact string; a hashed label shows its hash in brackets
(the source comments that the alternate `:+` form drops the brackets). -/
def Label.toString : Label → String
  | .Unhashed s => s
  | .Hashed h => "<" ++ toHex8 h ++ ">"

/-- Modelled from the spec: `Label::parse(text, hashed)` from the `bdat`
crate. When the flag asks for a hashed label and the text parses as a
32-bit hex number, the result is a `Hashed` label; otherwise the text is
kept verbatim as an `Unhashed` label. -/
def Label.parse (text : String) (hashed : Bool) : Label :=
  if hashed then
    match parseHexU32 text with
    | some h => .Hashed h
    | none => .Unhashed text
  else .Unhashed text

/-- Mirrors `matches!(label, Label::Unhashed(_))` from `write_table`. -/
def Label.isUnhashed : Label → Bool
  | .Unhashed _ => true
  | .Hashed _ => false

/-- Mirrors `matches!(label, Label::Hashed(_))`. -/
def Label.isHashedLabel : Label → Bool
  | .Unhashed _ => false
  | .Hashed _ => true

/-- Modelled from the spec: the closed enumeration of cell value kinds
(integer widths, string, hashed-string reference; floating point is not
exercised by any claim and is omitted). -/
inductive ValueType
  | UnsignedByte
  | UnsignedShort
  | UnsignedInt
  | SignedByte
  | SignedShort
  | SignedInt
  | String
  | HashRef
deriving DecidableEq

/-- Modelled from the spec: a scalar value held by a cell, tagged with its
kind. -/
inductive BdatValue
  | UnsignedByte (n : Nat)
  | UnsignedShort (n : Nat)
  | UnsignedInt (n : Nat)
  | SignedByte (i : Int)
  | SignedShort (i : Int)
  | SignedInt (i : Int)
  | String (s : String)
  | HashRef (h : Nat)
deriving DecidableEq

/-- Modelled from the spec: a cell is a single scalar value or an ordered
list of scalar values (the array-typed variant). -/
inductive Cell
  | Single (v : BdatValue)
  | List (vs : List BdatValue)
deriving DecidableEq

/-- A column definition: label, declared value type, and the binary-codec
offset (written as the neutral placeholder 0 when re-synthesized from
text). -/
structure ColumnDef where
  label : Label
  ty : ValueType
  offset : Nat
deriving DecidableEq

/-- A row: stable id plus the ordered cells, positionally aligned with the
table's columns. -/
structure Row where
  id : Nat
  cells : List Cell
deriving DecidableEq

/-- A decoded table: optional name, ordered columns, ordered rows. -/
structure RawTable where
  name : Option Label
  columns : List ColumnDef
  rows : List Row
deriving DecidableEq

/-- `ColumnSchema` from `json.rs`: one schema entry of the typed JSON
document (`name`, `type`, `hashed`). -/
structure ColumnSchema where
  name : String
  ty : ValueType
  hashed : Bool
deriving DecidableEq

/-- `TableRow` from `json.rs`: the row object of the JSON document. The
`id` field is serialized under the key `$id`; `cells` models the flattened
`HashMap<String, Value>` as an association list with unique keys. -/
structure TableRow where
  id : Nat
  cells : List (String × JValue)

/-- `JsonTable` from `json.rs`: optional inline schema plus rows. -/
structure JsonTable where
  schema : Option (List ColumnSchema)
  rows : List TableRow

/-- The JSON object fields of a serialized `TableRow`: the serde rename
puts the id under the key `$id` and the flattened cell map follows. -/
def TableRow.toJsonFields (r : TableRow) : List (String × JValue) :=
  ("$id", JValue.num (Int.ofNat r.id)) :: r.cells

/-- Outcome of fallible embedded code: `crash` models a process-terminating
fault (Rust `panic` / `expect` / `unwrap` / indexing failure / `todo`),
`failure` models a recoverable error returned as `Result::Err`. -/
inductive RtErr
  | crash (msg : String)
  | failure (msg : String)
deriving DecidableEq

/-- `HashMap::insert` on an association-list model of `HashMap<String, α>`:
replaces the value of an existing key, otherwise adds the binding. The
list order of the model is an artifact — real `HashMap` iteration order is
arbitrary — so theorem conclusions about the map only use its key set,
its size, and `hmLookup`, never the list order. -/
def hmInsert {α : Type} (m : List (String × α)) (k : String) (v : α) :
    List (String × α) :=
  if m.any (fun p => p.1 == k) then
    m.map (fun p => if p.1 == k then (k, v) else p)
  else m ++ [(k, v)]

/-- `HashMap` lookup on the association-list model. -/
def hmLookup {α : Type} (m : List (String × α)) (k : String) : Option α :=
  (m.find? (fun p => p.1 == k)).map (fun p => p.2)

/-- `Iterator::collect::<Result<Vec<_>, _>>()`: the first error wins,
otherwise all successes are collected in order. -/
def collectE {α : Type} : List (Except RtErr α) → Except RtErr (List α)
  | [] => .ok []
  | x :: xs =>
    match x with
    | .error e => .error e
    | .ok a =>
      match collectE xs with
      | .error e => .error e
      | .ok bs => .ok (a :: bs)

/-- Modelled from the spec: serde serialization of one scalar value —
numbers as numeric literals, strings as text, hash references as the
numeric hash. -/
def BdatValue.toJson : BdatValue → JValue
  | .UnsignedByte n => .num (Int.ofNat n)
  | .UnsignedShort n => .num (Int.ofNat n)
  | .UnsignedInt n => .num (Int.ofNat n)
  | .SignedByte i => .num i
  | .SignedShort i => .num i
  | .SignedInt i => .num i
  | .String s => .str s
  | .HashRef h => .num (Int.ofNat h)

/-- Modelled from the spec: serde serialization of one cell; array cells
become ordered JSON arrays of the element rendering. -/
def Cell.toJson : Cell → JValue
  | .Single v => v.toJson
  | .List vs => .arr (vs.map BdatValue.toJson)

/-- Modelled from the spec: the type-directed decode rule of one scalar
JSON value at a declared value type; fails when the value cannot decode
into that type. -/
def decodeValue : ValueType → JValue → Option BdatValue
  | .UnsignedByte, .num i =>
    if 0 ≤ i ∧ i < 256 then some (.UnsignedByte i.toNat) else none
  | .UnsignedShort, .num i =>
    if 0 ≤ i ∧ i < 65536 then some (.UnsignedShort i.toNat) else none
  | .UnsignedInt, .num i =>
    if 0 ≤ i ∧ i < 2 ^ 32 then some (.UnsignedInt i.toNat) else none
  | .SignedByte, .num i =>
    if -128 ≤ i ∧ i < 128 then some (.SignedByte i) else none
  | .SignedShort, .num i =>
    if -32768 ≤ i ∧ i < 32768 then some (.SignedShort i) else none
  | .SignedInt, .num i =>
    if -(2 ^ 31) ≤ i ∧ i < 2 ^ 31 then some (.SignedInt i) else none
  | .String, .str s => some (.String s)
  | .HashRef, .num i =>
    if 0 ≤ i ∧ i < 2 ^ 32 then some (.HashRef i.toNat) else none
  | _, _ => none

/-- Modelled from the spec: `ty.as_cell_seed().deserialize(v)` — a JSON
array decodes elementwise into a list cell, anything else into a single
cell, at the column's declared type. -/
def decodeCell (ty : ValueType) : JValue → Option Cell
  | .arr xs => (xs.mapM (decodeValue ty)).map Cell.List
  | v => (decodeValue ty v).map Cell.Single

/-- The cell map of one exported row (`write_table`'s inner loop): for each
column in order, `row.cells.remove(0)` pops the next cell and the rendered
label keyed by `HashMap` insertion; popping from an empty cell vector is a
Rust panic. -/
def writeRowCells :
    List ColumnDef → List Cell → List (String × JValue) →
    Except RtErr (List (String × JValue))
  | [], _, acc => .ok acc
  | _ :: _, [], _ => .error (.crash "remove from empty cell vector")
  | c :: cs, v :: vs, acc =>
    writeRowCells cs vs (hmInsert acc c.label.toString v.toJson)

/-- One exported row object: the row's id plus its cell map. -/
def writeRow (cols : List ColumnDef) (r : Row) : Except RtErr TableRow :=
  match writeRowCells cols r.cells [] with
  | .error e => .error e
  | .ok cells => .ok ⟨r.id, cells⟩

/-- `JsonConverter::write_table` from `json.rs`: unless untyped output was
requested, emit one `ColumnSchema` per column in column order, with
`hashed := matches!(label, Label::Unhashed(_))` exactly as in the source;
then emit one row object per row in row order. -/
def write_table (untyped : Bool) (table : RawTable) :
    Except RtErr JsonTable :=
  let schema :=
    if untyped then none
    else some (table.columns.map (fun c =>
      (⟨c.label.toString, c.ty, c.label.isUnhashed⟩ : ColumnSchema)))
  match collectE (table.rows.map (writeRow table.columns)) with
  | .error e => .error e
  | .ok rows => .ok ⟨schema, rows⟩

/-- Modelled from the spec: the binary format version recorded in a file
schema. -/
inductive BdatVersion
  | Modern
  | LegacySwitch
deriving DecidableEq

/-- Modelled from the spec: whether the version stores labels as hashes. -/
def BdatVersion.are_labels_hashed : BdatVersion → Bool
  | .Modern => true
  | .LegacySwitch => false

/-- Modelled from the spec: the sidecar `FileSchema` from `schema.rs` —
source file name, format version, and the column layout of every table of
the file, accumulated in table order. -/
structure FileSchema where
  file_name : String
  version : BdatVersion
  tables : List (Option Label × List ColumnSchema)

/-- Modelled from the spec: `FileSchema::new` starts with no tables. -/
def FileSchema.new (fn : String) (v : BdatVersion) : FileSchema :=
  ⟨fn, v, []⟩

/-- The column layout recorded for one table: name, type, and whether the
label is a hash (modelled from the spec's description of `feed_table`). -/
def tableLayout (t : RawTable) : List ColumnSchema :=
  t.columns.map (fun c => ⟨c.label.toString, c.ty, c.label.isHashedLabel⟩)

/-- Modelled from the spec: `FileSchema::feed_table` appends the table's
current column layout under the table's name. -/
def FileSchema.feed_table (fs : FileSchema) (t : RawTable) : FileSchema :=
  ⟨fs.file_name, fs.version, fs.tables ++ [(t.name, tableLayout t)]⟩

/-- The column fold of `read_table`: builds the `ColumnDef` vector (with
the neutral offset 0) and the name-to-(index, type) map, exactly as the
source's three-component fold. -/
def buildColumns (schemas : List ColumnSchema) :
    List ColumnDef × List (String × (Nat × ValueType)) × Nat :=
  schemas.foldl
    (fun acc col =>
      let cols := acc.1
      let map := acc.2.1
      let idx := acc.2.2
      (cols ++ [⟨Label.parse col.name col.hashed, col.ty, 0⟩],
        hmInsert map col.name (idx, col.ty), idx + 1))
    ([], [], 0)

/-- `cells[index] = value` on the option-cell vector: out-of-range index is
a Rust panic. -/
def setCell :
    List (Option Cell) → Nat → Cell → Except RtErr (List (Option Cell))
  | _ :: rest, 0, c => .ok (some c :: rest)
  | x :: rest, n + 1, c =>
    match setCell rest n c with
    | .error e => .error e
    | .ok r2 => .ok (x :: r2)
  | [], _, _ => .error (.crash "index out of bounds")

/-- The field loop of `read_table`'s row decoding: look up each field name
in the column map (`column_map[&k]` panics on an unknown key), decode the
value at the declared type (`unwrap` panics on failure), and place it at
the column's index. -/
def readRowFold (cmap : List (String × (Nat × ValueType))) :
    List (Option Cell) → List (String × JValue) →
    Except RtErr (List (Option Cell))
  | acc, [] => .ok acc
  | acc, (k, v) :: rest =>
    match hmLookup cmap k with
    | none => .error (.crash "key not found in column map")
    | some (index, ty) =>
      match decodeCell ty v with
      | none => .error (.crash "failed to deserialize cell value")
      | some c =>
        match setCell acc index c with
        | .error e => .error e
        | .ok acc2 => readRowFold cmap acc2 rest

/-- One imported row: the option-cell vector starts sized by the number of
fields present in the row object, surviving `none` entries trigger the
`rows must have all cells` panic, and the row keeps its id. -/
def readRow (cmap : List (String × (Nat × ValueType))) (r : TableRow) :
    Except RtErr Row :=
  match readRowFold cmap (List.replicate r.cells.length none) r.cells with
  | .error e => .error e
  | .ok cells0 =>
    let old_len := cells0.length
    let cells := cells0.filterMap id
    if cells.length ≠ old_len then .error (.crash "rows must have all cells")
    else .ok ⟨r.id, cells⟩

/-- `JsonConverter::read_table` from `json.rs`: requires the inline schema
(`expect("TODO, no column schema")` is a panic — the sidecar `FileSchema`
argument is never consulted), rebuilds the columns with the neutral offset,
and decodes each row. -/
def read_table (name : Option Label) (schema : FileSchema)
    (table : JsonTable) : Except RtErr RawTable :=
  match table.schema with
  | none => .error (.crash "TODO, no column schema")
  | some schemas =>
    let cols := buildColumns schemas
    match collectE (table.rows.map (readRow cols.2.1)) with
    | .error e => .error e
    | .ok rows => .ok ⟨name, cols.1, rows⟩

/-- Typed-mode export followed by import, as one run of the pipeline would
perform it for a single table. -/
def round_trip (fs : FileSchema) (t : RawTable) : Except RtErr RawTable :=
  match write_table false t with
  | .error e => .error e
  | .ok doc => read_table t.name fs doc

/-- Modelled from the spec: the process-wide hash-to-name lookup table. -/
abbrev HashNameTable := List (Nat × String)

/-- Modelled from the spec: `resolve(hash)` — pure, read-only lookup. -/
def resolveHash (ht : HashNameTable) (h : Nat) : Option String :=
  (ht.find? (fun p => p.1 == h)).map (fun p => p.2)

/-- Modelled from the spec: replace a hashed label that resolves with its
unhashed equivalent; leave unresolved hashes and unhashed labels alone. -/
def convertLabel (ht : HashNameTable) : Label → Label
  | .Hashed h =>
    match resolveHash ht h with
    | some s => .Unhashed s
    | none => .Hashed h
  | .Unhashed s => .Unhashed s

/-- Modelled from the spec: `HashNameTable::convert_all` rewrites the table
name and every column label in place. -/
def convertAll (ht : HashNameTable) (t : RawTable) : RawTable :=
  ⟨t.name.map (convertLabel ht),
    t.columns.map (fun c => ⟨convertLabel ht c.label, c.ty, c.offset⟩),
    t.rows⟩

/-- Modelled from the spec: a Selection Filter is a set of name patterns;
membership is true for the empty filter (select-all) or on a match. -/
abbrev Filter := List String

/-- Modelled from the spec: `Filter::contains` applied to a label. -/
def Filter.contains (f : Filter) (l : Label) : Bool :=
  f.isEmpty || f.any (fun p => p == l.toString)

/-- The per-table loop of `run_serialization` (`mod.rs`, the body of
`for mut table in file.get_tables()`): each table is first rewritten by the
hash-name table, then fed to the file schema accumulator when one exists,
and only then checked for a name (unnamed tables are skipped with a
warning) and against the table filter; surviving tables are serialized.
Returns the final schema accumulator and the tables written, in order. -/
def processTables (ht : HashNameTable) (filt : Filter) :
    Option FileSchema → List RawTable → Option FileSchema × List RawTable
  | sch, [] => (sch, [])
  | sch, t :: ts =>
    let t2 := convertAll ht t
    let sch2 :=
      match sch with
      | some s => some (s.feed_table t2)
      | none => none
    match t2.name with
    | none => processTables ht filt sch2 ts
    | some n =>
      if filt.contains n then
        let r := processTables ht filt sch2 ts
        (r.1, t2 :: r.2)
      else processTables ht filt sch2 ts

/-- The error outcomes of a whole batch run. `aborted` models a
process-terminating fault (`todo` or panic), the others model the error
values the run returns. -/
inductive RunError
  | configError (msg : String)
  | ioError (msg : String)
  | aborted (msg : String)
  | unitFailed (e : RtErr)
deriving DecidableEq

/-- `std::fs::create_dir`: non-recursive, errors when the directory already
exists (mirrors `create_dir(out_dir).context("Could not create output
directory")`). -/
def create_dir (dirs : List String) (d : String) :
    Except RunError (List String) :=
  if d ∈ dirs then .error (.ioError "Could not create output directory")
  else .ok (d :: dirs)

/-- `std::fs::create_dir_all`: recursive, tolerates a pre-existing
directory. -/
def create_dir_all (dirs : List String) (d : String) :
    Except RunError (List String) :=
  .ok (if d ∈ dirs then dirs else d :: dirs)

/-- `Result::is_err`, used as the `find_any` predicate of both runs. -/
def isErrE : Except RtErr Unit → Bool
  | .error _ => true
  | .ok _ => false

/-- The serializer selection of `run_serialization`: a missing file type is
a configuration error, and only `csv` and `json` are known. -/
def checkSerFormat (ft : Option String) : Except RunError Unit :=
  match ft with
  | none => .error (.configError "file type is required")
  | some t =>
    if t = "csv" ∨ t = "json" then .ok ()
    else .error (.configError "unknown file type")

/-- The deserializer selection of `run_deserialization`: only `json` is
known. -/
def checkDeserFormat (ft : Option String) : Except RunError Unit :=
  match ft with
  | none => .error (.configError "file type is required")
  | some t =>
    if t = "json" then .ok ()
    else .error (.configError "unknown file type")

/-- The inputs of one export run: the configured output directory and file
type, the directories already existing on disk, the listed source files,
and a possible listing error. -/
structure SerRunInput where
  out_file : Option String
  file_type : Option String
  existing_dirs : List String
  files : List String
  list_error : Option String

/-- The inputs of one import run: the listed schema sidecar files come
first because `run_deserialization` lists them before anything else. -/
structure DeserRunInput where
  schema_files : List String
  list_error : Option String
  out_file : Option String
  file_type : Option String
  existing_dirs : List String

/-- `run_serialization` from `mod.rs`, abstracted over the per-file unit of
work: check the output option, create the output directory
(non-recursively), select the serializer, list the source files, run one
unit per file, and return the first failing unit's error if any. The
second component is the list of files whose unit of work ran (and hence
was decoded). -/
def run_serialization_model (inp : SerRunInput)
    (unitRun : String → Except RtErr Unit) :
    Except RunError Unit × List String :=
  match inp.out_file with
  | none => (.error (.configError "out dir is required"), [])
  | some outDir =>
    match create_dir inp.existing_dirs outDir with
    | .error e => (.error e, [])
    | .ok _ =>
      match checkSerFormat inp.file_type with
      | .error e => (.error e, [])
      | .ok _ =>
        match inp.list_error with
        | some e => (.error (.ioError e), [])
        | none =>
          match (inp.files.map unitRun).find? isErrE with
          | some (.error e) => (.error (.unitFailed e), inp.files)
          | _ => (.ok (), inp.files)

/-- `run_deserialization` from `mod.rs`, abstracted over the per-schema
unit of work: list the schema sidecars first (`todo` aborts the process
when none are found), then check the output option, create the output
directory (non-recursively), select the deserializer, and run one unit per
schema file. The result of `find_any` over the unit results is bound but
discarded, exactly as in the source, so the run returns success even when
a unit failed. -/
def run_deserialization_model (inp : DeserRunInput)
    (unitRun : String → Except RtErr Unit) :
    Except RunError Unit × List String :=
  match inp.list_error with
  | some e => (.error (.ioError e), [])
  | none =>
    if inp.schema_files.isEmpty then
      (.error (.aborted "no schema files found"), [])
    else
      match inp.out_file with
      | none => (.error (.configError "out dir is required"), [])
      | some outDir =>
        match create_dir inp.existing_dirs outDir with
        | .error e => (.error e, [])
        | .ok _ =>
          match checkDeserFormat inp.file_type with
          | .error e => (.error e, [])
          | .ok _ =>
            let _ := (inp.schema_files.map unitRun).find? isErrE
            (.ok (), inp.schema_files)

/-- Whether a run result is an `ioError`. -/
def isIoError : Except RunError Unit → Bool
  | .error (.ioError _) => true
  | _ => false

/-- The spec's concrete scenario: table `Enemy` with an unhashed `int32`
column `id` and a hashed string column `0xa1b2c3d4`, and one row
`(id : 1, cells : 7, Slime)`. -/
def enemyTable : RawTable :=
  ⟨some (.Unhashed "Enemy"),
    [⟨.Unhashed "id", .SignedInt, 24⟩, ⟨.Hashed 0xa1b2c3d4, .String, 28⟩],
    [⟨1, [.Single (.SignedInt 7), .Single (.String "Slime")]⟩]⟩

/-- A table whose single column has a hashed label with no resolver entry. -/
def hashedColTable : RawTable :=
  ⟨some (.Unhashed "Enemy"),
    [⟨.Hashed 0xa1b2c3d4, .String, 16⟩],
    [⟨1, [.Single (.String "Slime")]⟩]⟩

/-- An empty sidecar schema (the `read_table` argument is never consulted
by the source). -/
def emptyFileSchema : FileSchema := FileSchema.new "file" .Modern

/-- A sidecar schema that does hold a column layout for table `Enemy`. -/
def sidecarWithEnemy : FileSchema :=
  ⟨"file", .Modern,
    [(some (.Unhashed "Enemy"),
      [⟨"id", .SignedInt, false⟩, ⟨"a1b2c3d4", .String, true⟩])]⟩

/-- The two-column schema (`a`, `b`, both `int32`) used by the malformed
row scenarios. -/
def schemaAB : List ColumnSchema :=
  [⟨"a", .SignedInt, false⟩, ⟨"b", .SignedInt, false⟩]

/-- A table with two columns whose labels render to the same string. -/
def dupTable : RawTable :=
  ⟨some (.Unhashed "T"),
    [⟨.Unhashed "a", .SignedInt, 0⟩, ⟨.Unhashed "a", .SignedInt, 4⟩],
    [⟨1, [.Single (.SignedInt 1), .Single (.SignedInt 2)]⟩]⟩

/-- A table equal to `dupTable` except in the first (shadowed) cell. -/
def dupTable2 : RawTable :=
  ⟨some (.Unhashed "T"),
    [⟨.Unhashed "a", .SignedInt, 0⟩, ⟨.Unhashed "a", .SignedInt, 4⟩],
    [⟨1, [.Single (.SignedInt 3), .Single (.SignedInt 2)]⟩]⟩

/-- A table and a document used to exercise the row-id preservation path:
two rows with ids 5 and 9 and a single unhashed string column. -/
def c7Table : RawTable :=
  ⟨some (.Unhashed "Quest"),
    [⟨.Unhashed "title", .String, 8⟩],
    [⟨5, [.Single (.String "x")]⟩, ⟨9, [.Single (.String "y")]⟩]⟩

/-- The typed export of `c7Table`. -/
def c7Doc : JsonTable :=
  ⟨some [⟨"title", .String, true⟩],
    [⟨5, [("title", .str "x")]⟩, ⟨9, [("title", .str "y")]⟩]⟩

/-- The re-import of `c7Doc` (offsets reset to the neutral placeholder). -/
def c7Out : RawTable :=
  ⟨some (.Unhashed "Quest"),
    [⟨.Unhashed "title", .String, 0⟩],
    [⟨5, [.Single (.String "x")]⟩, ⟨9, [.Single (.String "y")]⟩]⟩

/-- A two-column table with distinct rendered labels and one row. -/
def c6Table : RawTable :=
  ⟨some (.Unhashed "Item"),
    [⟨.Unhashed "id", .SignedInt, 0⟩, ⟨.Unhashed "price", .UnsignedShort, 4⟩],
    [⟨3, [.Single (.SignedInt 7), .Single (.UnsignedShort 20)]⟩]⟩

/-- `HashMap::insert` of a key absent from the map appends the binding. -/
theorem hmInsert_fresh {α : Type} (m : List (String × α)) (k : String) (v : α)
    (h : k ∉ m.map Prod.fst) : hmInsert m k v = m ++ [(k, v)] := by
  have hany : m.any (fun p => p.1 == k) = false := by
    rw [List.any_eq_false]
    intro p hp
    simp only [beq_iff_eq]
    intro hpk
    exact h (hpk ▸ List.mem_map_of_mem Prod.fst hp)
  simp [hmInsert, hany]

/-- When the column labels render to pairwise distinct strings that are
also absent from the accumulator, the exported cell map of one row is the
accumulator followed by one field per column in column order, each field
holding the rendering of the cell at that column's position. -/
theorem writeRowCells_eq :
    ∀ (cols : List ColumnDef) (cells : List Cell)
      (acc : List (String × JValue)),
      cells.length = cols.length →
      (∀ k ∈ cols.map (fun c => c.label.toString), k ∉ acc.map Prod.fst) →
      (cols.map (fun c => c.label.toString)).Nodup →
      writeRowCells cols cells acc =
        .ok (acc ++ List.zipWith
          (fun (c : ColumnDef) (v : Cell) => (c.label.toString, v.toJson))
          cols cells) := by
  intro cols
  induction cols with
  | nil =>
    intro cells acc _ _ _
    simp [writeRowCells]
  | cons c cs ih =>
    intro cells acc hlen hfresh hnodup
    cases cells with
    | nil => simp at hlen
    | cons v vs =>
      have hk : c.label.toString ∉ acc.map Prod.fst :=
        hfresh c.label.toString (by simp)
      simp only [List.map_cons] at hnodup
      rw [List.nodup_cons] at hnodup
      simp only [writeRowCells, hmInsert_fresh acc c.label.toString v.toJson hk]
      rw [ih vs (acc ++ [(c.label.toString, v.toJson)])
        (by simpa using hlen)
        (fun k hkmem => by
          simp only [List.map_append, List.mem_append, List.map_cons]
          intro hcon
          rcases hcon with hacc | hnew
          · exact hfresh k (by simp [hkmem]) hacc
          · simp only [List.map_nil, List.mem_singleton] at hnew
            subst hnew
            exact hnodup.1 hkmem)
        hnodup.2]
      simp [List.zipWith]

/-- Looking up the key just inserted at the head of the map model. -/
theorem hmLookup_cons_self {α : Type} (k : String) (v : α)
    (m : List (String × α)) : hmLookup ((k, v) :: m) k = some v := by
  simp [hmLookup]

/-- Looking up a key different from the head binding's key skips the
head. -/
theorem hmLookup_cons_ne {α : Type} (k k0 : String) (v0 : α)
    (m : List (String × α)) (h : k ≠ k0) :
    hmLookup ((k0, v0) :: m) k = hmLookup m k := by
  have hne : ((k0, v0).1 == k) = false := by
    simp only [beq_eq_false_iff_ne, ne_eq]
    exact fun hc => h hc.symm
  simp [hmLookup, List.find?, hne]

/-- Looking up each column's rendered label in the cell map built from
pairwise distinct labels returns the rendering of the cell at that
column's position — an order-insensitive description of the row object's
content. -/
theorem lookup_zip_cells :
    ∀ (cols : List ColumnDef) (cells : List Cell),
      cells.length = cols.length →
      (cols.map (fun c => c.label.toString)).Nodup →
      cols.map (fun c => hmLookup
          (List.zipWith (fun (c2 : ColumnDef) (v : Cell) =>
            (c2.label.toString, v.toJson)) cols cells)
          c.label.toString)
        = cells.map (fun v => some v.toJson) := by
  intro cols
  induction cols with
  | nil =>
    intro cells hlen _
    cases cells with
    | nil => simp
    | cons v vs => simp at hlen
  | cons c cs ih =>
    intro cells hlen hnodup
    cases cells with
    | nil => simp at hlen
    | cons v vs =>
      simp only [List.map_cons] at hnodup
      rw [List.nodup_cons] at hnodup
      simp only [List.zipWith, List.map_cons,
        hmLookup_cons_self c.label.toString v.toJson]
      refine congrArg (List.cons (some v.toJson)) ?_
      have hskip :
          cs.map (fun c2 => hmLookup
            ((c.label.toString, v.toJson) ::
              List.zipWith (fun (c2 : ColumnDef) (v2 : Cell) =>
                (c2.label.toString, v2.toJson)) cs vs)
            c2.label.toString)
          = cs.map (fun c2 => hmLookup
            (List.zipWith (fun (c2 : ColumnDef) (v2 : Cell) =>
              (c2.label.toString, v2.toJson)) cs vs)
            c2.label.toString) := by
        refine List.map_congr_left (fun c2 hc2 => ?_)
        refine hmLookup_cons_ne c2.label.toString c.label.toString
          v.toJson _ (fun hc => ?_)
        exact hnodup.1 (hc ▸ List.mem_map_of_mem
          (fun c3 => c3.label.toString) hc2)
      rw [hskip, ih vs (by simpa using hlen) hnodup.2]

/-- `collect::<Result<Vec<_>, _>>()` over a list on which the unit function
succeeds everywhere returns all results in order. -/
theorem collectE_map_of_ok {α β : Type} (f : α → Except RtErr β)
    (g : α → β) :
    ∀ xs : List α, (∀ a ∈ xs, f a = .ok (g a)) →
      collectE (xs.map f) = .ok (xs.map g) := by
  intro xs
  induction xs with
  | nil => intro _; simp [collectE]
  | cons x xs ih =>
    intro h
    have hx := h x (by simp)
    simp only [List.map_cons, collectE, hx, ih (fun a ha => h a (by simp [ha]))]

/-- When `collect::<Result<Vec<_>, _>>()` succeeds, any function of the
results that agrees pointwise with a function of the inputs agrees on the
whole lists. -/
theorem collectE_map_rel {α β γ : Type} (f : α → Except RtErr β) (g : β → γ)
    (gh : α → γ) (H : ∀ a b, f a = .ok b → g b = gh a) :
    ∀ (xs : List α) (ys : List β),
      collectE (xs.map f) = .ok ys → ys.map g = xs.map gh := by
  intro xs
  induction xs with
  | nil =>
    intro ys h
    simp only [List.map_nil, collectE, Except.ok.injEq] at h
    subst h
    simp
  | cons x xs ih =>
    intro ys h
    simp only [List.map_cons, collectE] at h
    cases hfx : f x with
    | error e => rw [hfx] at h; cases h
    | ok b =>
      rw [hfx] at h
      cases hcs : collectE (xs.map f) with
      | error e => rw [hcs] at h; cases h
      | ok bs =>
        rw [hcs] at h
        cases h
        simp only [List.map_cons, ih bs hcs, H x b hfx]

/-- A row that `write_table` exports successfully keeps its id. -/
theorem writeRow_id (cols : List ColumnDef) (r : Row) (tr : TableRow)
    (h : writeRow cols r = .ok tr) : tr.id = r.id := by
  unfold writeRow at h
  cases hc : writeRowCells cols r.cells [] with
  | error e => rw [hc] at h; cases h
  | ok cells => rw [hc] at h; cases h; rfl

/-- A row that `read_table` decodes successfully keeps its id. -/
theorem readRow_id (cmap : List (String × (Nat × ValueType))) (r : TableRow)
    (row : Row) (h : readRow cmap r = .ok row) : row.id = r.id := by
  unfold readRow at h
  cases hc : readRowFold cmap (List.replicate r.cells.length none) r.cells with
  | error e => rw [hc] at h; cases h
  | ok cells0 =>
    rw [hc] at h
    simp only at h
    split at h
    · cases h
    · cases h; rfl

/-- C1: importing the typed-mode export of a table with a hashed,
unresolved column label does not restore the table: the column comes back
as an unhashed label holding the bracketed hex text instead of keeping its
exact numeric hash value (the schema flag written by `write_table` is
computed from `Label::Unhashed`, so the hashed column is re-parsed as
plain text). Evaluation of the code at the failing input. -/
theorem c1_round_trip_altered_hashed_label :
    round_trip emptyFileSchema hashedColTable =
      .ok ⟨some (.Unhashed "Enemy"),
        [⟨.Unhashed "<a1b2c3d4>", .String, 0⟩],
        [⟨1, [.Single (.String "Slime")]⟩]⟩
    ∧ hashedColTable.columns.map ColumnDef.label = [.Hashed 0xa1b2c3d4]
    ∧ (Label.Unhashed "<a1b2c3d4>" ≠ Label.Hashed 0xa1b2c3d4) :=
  ⟨rfl, rfl, by decide⟩

/-- C2: `write_table` computes the schema `hashed` flag as
`matches!(label, Label::Unhashed(_))`, so the unhashed `int32` column `id`
is written with `hashed : true` and the hashed string column with
`hashed : false` — the exact opposite of the claim. Evaluation of the code
at the spec's concrete scenario. -/
theorem c2_hashed_flag_inverted :
    write_table false enemyTable =
      .ok ⟨some [⟨"id", .SignedInt, true⟩, ⟨"<a1b2c3d4>", .String, false⟩],
        [⟨1, [("id", .num 7), ("<a1b2c3d4>", .str "Slime")]⟩]⟩
    ∧ enemyTable.columns.map ColumnDef.label =
        [.Unhashed "id", .Hashed 0xa1b2c3d4] :=
  ⟨rfl, rfl⟩

/-- C3: `read_table` never reports a malformed row as a recoverable error:
an unknown field name crashes at the column-map index, a missing field for
a non-trailing column crashes at the out-of-bounds cell assignment, a
value that cannot decode crashes at the `unwrap`, and a row missing only
trailing columns is accepted silently with too few cells. Evaluation of
the code at the four failing inputs. -/
theorem c3_malformed_row_crashes :
    read_table none emptyFileSchema ⟨some schemaAB, [⟨1, [("c", .num 7)]⟩]⟩
      = .error (.crash "key not found in column map")
    ∧ read_table none emptyFileSchema ⟨some schemaAB, [⟨1, [("b", .num 7)]⟩]⟩
      = .error (.crash "index out of bounds")
    ∧ read_table none emptyFileSchema
        ⟨some schemaAB, [⟨1, [("a", .str "x"), ("b", .num 1)]⟩]⟩
      = .error (.crash "failed to deserialize cell value")
    ∧ read_table none emptyFileSchema ⟨some schemaAB, [⟨1, [("a", .num 7)]⟩]⟩
      = .ok ⟨none,
          [⟨.Unhashed "a", .SignedInt, 0⟩, ⟨.Unhashed "b", .SignedInt, 0⟩],
          [⟨1, [.Single (.SignedInt 7)]⟩]⟩ :=
  ⟨rfl, rfl, rfl, rfl⟩

/-- C4: `read_table` never consults its sidecar `FileSchema` argument:
a document without an inline schema crashes at
`expect("TODO, no column schema")` even when the sidecar holds a column
layout for the table, instead of falling back to the sidecar or returning
a recoverable SchemaMissing error. Evaluation at the failing input. -/
theorem c4_sidecar_ignored_crash :
    read_table (some (.Unhashed "Enemy")) sidecarWithEnemy ⟨none, []⟩
      = .error (.crash "TODO, no column schema") := rfl

/-- C5: `run_serialization` returns the first failing unit's error, but
`run_deserialization` binds the result of `find_any` over the unit results
and discards it, returning success even when a schema unit failed.
Evaluation at a failing import run (and a failing export run for
contrast). -/
theorem c5_deserialization_drops_failure :
    (run_serialization_model
        ⟨some "out", some "json", [], ["a.bdat", "b.bdat"], none⟩
        (fun f => if f = "a.bdat" then .error (.failure "errA")
          else .error (.failure "errB"))).1
      = .error (.unitFailed (.failure "errA"))
    ∧ (run_deserialization_model
        ⟨["a.bschema"], none, some "out", some "json", []⟩
        (fun _ => .error (.failure "codec failed"))).1 = .ok () :=
  ⟨rfl, rfl⟩

/-- C6 counterexample: a table whose two columns render to the same label
string has each row exported with a single cell field — not one field per
column — because cells are keyed by rendered name in a map; the claim as
stated is false for this table even though its row has exactly one cell
per column. -/
theorem c6_duplicate_label_drops_field :
    write_table false dupTable =
      .ok ⟨some [⟨"a", .SignedInt, true⟩, ⟨"a", .SignedInt, true⟩],
        [⟨1, [("a", .num 2)]⟩]⟩
    ∧ dupTable.columns.length = 2
    ∧ dupTable.rows =
        [⟨1, [.Single (.SignedInt 1), .Single (.SignedInt 2)]⟩] :=
  ⟨rfl, rfl, rfl⟩

/-- C6 (amended): for a table whose columns render to pairwise distinct
label strings and whose rows each have exactly one cell per column,
`write_table` succeeds and renders each row, in row order, as an object
carrying the row's stable id plus exactly one cell field per column, each
keyed by the column's rendered label and holding the rendering of the cell
at that column's position. The conclusions only consult the row object
through its id, its field count, and keyed lookup, because the source
stores the fields in a `HashMap` whose serialization order is arbitrary —
no conclusion depends on the field order of the map model. -/
theorem c6_row_object_shape (u : Bool) (t : RawTable) (doc : JsonTable)
    (hnodup : (t.columns.map (fun c => c.label.toString)).Nodup)
    (hlen : ∀ r ∈ t.rows, r.cells.length = t.columns.length)
    (hw : write_table u t = .ok doc) :
    doc.schema = (if u then none
      else some (t.columns.map (fun c =>
        ⟨c.label.toString, c.ty, c.label.isUnhashed⟩)))
    ∧ doc.rows.map TableRow.id = t.rows.map Row.id
    ∧ doc.rows.map (fun tr => tr.cells.length)
        = t.rows.map (fun _ => t.columns.length)
    ∧ doc.rows.map (fun tr =>
        t.columns.map (fun c => hmLookup tr.cells c.label.toString))
      = t.rows.map (fun r => r.cells.map (fun v => some v.toJson)) := by
  have hwt : write_table u t = .ok
      ⟨if u then none
        else some (t.columns.map (fun c =>
          ⟨c.label.toString, c.ty, c.label.isUnhashed⟩)),
        t.rows.map (fun r =>
          ⟨r.id, List.zipWith
            (fun (c : ColumnDef) (v : Cell) => (c.label.toString, v.toJson))
            t.columns r.cells⟩)⟩ := by
    unfold write_table
    rw [collectE_map_of_ok (writeRow t.columns)
      (fun r => (⟨r.id, List.zipWith
        (fun (c : ColumnDef) (v : Cell) => (c.label.toString, v.toJson))
        t.columns r.cells⟩ : TableRow))
      t.rows
      (fun r hr => by
        unfold writeRow
        rw [writeRowCells_eq t.columns r.cells [] (by rw [hlen r hr])
          (by simp) hnodup]
        simp)]
  rw [hwt] at hw
  cases hw
  refine ⟨rfl, ?_, ?_, ?_⟩
  · simp [List.map_map, Function.comp]
  · simp only [List.map_map]
    refine List.map_congr_left (fun r hr => ?_)
    simp [Function.comp, List.length_zipWith, hlen r hr]
  · simp only [List.map_map]
    refine List.map_congr_left (fun r hr => ?_)
    simp only [Function.comp]
    exact lookup_zip_cells t.columns r.cells (hlen r hr) hnodup

/-- The typed export of `c6Table`, as the code computes it. -/
def c6Doc : JsonTable :=
  ⟨some [⟨"id", .SignedInt, true⟩, ⟨"price", .UnsignedShort, true⟩],
    [⟨3, [("id", .num 7), ("price", .num 20)]⟩]⟩

/-- C6 witness: the amended row-object description at a concrete
two-column table and its computed export. -/
theorem c6_row_object_shape_witness :
    c6Doc.schema = (if false then none
      else some (c6Table.columns.map (fun c =>
        ⟨c.label.toString, c.ty, c.label.isUnhashed⟩)))
    ∧ c6Doc.rows.map TableRow.id = c6Table.rows.map Row.id
    ∧ c6Doc.rows.map (fun tr => tr.cells.length)
        = c6Table.rows.map (fun _ => c6Table.columns.length)
    ∧ c6Doc.rows.map (fun tr =>
        c6Table.columns.map (fun c => hmLookup tr.cells c.label.toString))
      = c6Table.rows.map (fun r => r.cells.map (fun v => some v.toJson)) :=
  c6_row_object_shape false c6Table c6Doc (by decide) (by decide) rfl

/-- C7: the id of every row survives export plus import exactly: the rows
of the exported document carry the original ids in order (serialized under
the `$id` key), and whenever `read_table` succeeds on that document the
restored rows carry the same ids in order. -/
theorem c7_row_id_preserved (u : Bool) (t : RawTable) (nm : Option Label)
    (fs : FileSchema) (doc : JsonTable) (t2 : RawTable)
    (hw : write_table u t = .ok doc) (hr : read_table nm fs doc = .ok t2) :
    doc.rows.map TableRow.id = t.rows.map Row.id
    ∧ t2.rows.map Row.id = t.rows.map Row.id
    ∧ doc.rows.map TableRow.toJsonFields =
        doc.rows.map (fun r =>
          ("$id", JValue.num (Int.ofNat r.id)) :: r.cells) := by
  have hdocid : doc.rows.map TableRow.id = t.rows.map Row.id := by
    unfold write_table at hw
    cases hcw : collectE (t.rows.map (writeRow t.columns)) with
    | error e => simp [hcw] at hw
    | ok wrows =>
      simp only [hcw] at hw
      cases hw
      exact collectE_map_rel (writeRow t.columns) TableRow.id Row.id
        (fun a b hab => writeRow_id t.columns a b hab) t.rows wrows hcw
  have ht2id : t2.rows.map Row.id = doc.rows.map TableRow.id := by
    unfold read_table at hr
    cases hsch : doc.schema with
    | none => simp [hsch] at hr
    | some schemas =>
      simp only [hsch] at hr
      cases hcr : collectE
          (doc.rows.map (readRow (buildColumns schemas).2.1)) with
      | error e => simp [hcr] at hr
      | ok rrows =>
        simp only [hcr] at hr
        cases hr
        exact collectE_map_rel (readRow (buildColumns schemas).2.1)
          Row.id TableRow.id
          (fun a b hab => readRow_id (buildColumns schemas).2.1 a b hab)
          doc.rows rrows hcr
  exact ⟨hdocid, ht2id.trans hdocid, rfl⟩

/-- C7 witness: row ids 5 and 9 survive the export and re-import of a
concrete table. -/
theorem c7_row_id_preserved_witness :
    c7Doc.rows.map TableRow.id = c7Table.rows.map Row.id
    ∧ c7Out.rows.map Row.id = c7Table.rows.map Row.id :=
  ⟨(c7_row_id_preserved false c7Table (some (.Unhashed "Quest"))
      emptyFileSchema c7Doc c7Out rfl rfl).1,
    (c7_row_id_preserved false c7Table (some (.Unhashed "Quest"))
      emptyFileSchema c7Doc c7Out rfl rfl).2.1⟩

/-- C8: with schema emission enabled, every table decoded from a source
file is first rewritten by the hash-name table and then fed to the file
schema accumulator exactly once, in table-encounter order, before the
unnamed-table skip and the selection filter are consulted — so the sidecar
describes every table of the file in its post-rewrite label state. -/
theorem c8_schema_feeds_every_table (ht : HashNameTable) (filt : Filter)
    (ts : List RawTable) (s0 : FileSchema) :
    (processTables ht filt (some s0) ts).1 =
      some ((ts.map (convertAll ht)).foldl FileSchema.feed_table s0) := by
  induction ts generalizing s0 with
  | nil => simp [processTables]
  | cons t ts ih =>
    simp only [processTables, List.map_cons, List.foldl_cons]
    cases hname : (convertAll ht t).name with
    | none => simpa using ih (s0.feed_table (convertAll ht t))
    | some n =>
      by_cases hf : filt.contains n = true
      · simp [hf, ih (s0.feed_table (convertAll ht t))]
      · simp [hf, ih (s0.feed_table (convertAll ht t))]

/-- C9: for a table with two columns whose labels render to the same
string, `write_table` produces row objects with fewer cell fields than the
table has columns, `read_table`'s column map sends the shared name to the
single (last) column index, export identifies two distinct tables, and the
round trip fails on such a table. -/
theorem c9_label_collision_not_injective :
    write_table false dupTable =
      .ok ⟨some [⟨"a", .SignedInt, true⟩, ⟨"a", .SignedInt, true⟩],
        [⟨1, [("a", .num 2)]⟩]⟩
    ∧ dupTable.columns.length = 2
    ∧ (buildColumns [⟨"a", .SignedInt, false⟩, ⟨"a", .SignedInt, false⟩]).2.1
        = [("a", (1, .SignedInt))]
    ∧ write_table false dupTable = write_table false dupTable2
    ∧ dupTable ≠ dupTable2
    ∧ round_trip emptyFileSchema dupTable
        = .error (.crash "index out of bounds") :=
  ⟨rfl, rfl, rfl, rfl, by decide, rfl⟩

/-- C10 counterexample: an import run that lists zero schema sidecar files
aborts at the `todo` before the output directory is even created, so a run
whose output directory already exists does not fail with an IOError in
that case — the claim as stated is false for this input. -/
theorem c10_empty_import_aborts :
    (run_deserialization_model ⟨[], none, some "out", some "json", ["out"]⟩
        (fun _ => .ok ())).1 = .error (.aborted "no schema files found")
    ∧ isIoError (run_deserialization_model
        ⟨[], none, some "out", some "json", ["out"]⟩ (fun _ => .ok ())).1
      = false :=
  ⟨rfl, rfl⟩

/-- C10 (amended): in either mode — provided an import run lists at least
one schema sidecar file — a pre-existing top-level output directory makes
the run fail with an IOError from the non-recursive directory creation
before any source file's unit of work is decoded or converted, while the
recursive `create_dir_all` used for per-file subdirectories tolerates a
pre-existing directory. -/
theorem c10_output_dir_precreated_fails (si : SerRunInput)
    (di : DeserRunInput) (u v : String → Except RtErr Unit) (d e : String)
    (dirs : List String) (dir : String) :
    (si.out_file = some d → d ∈ si.existing_dirs →
      (run_serialization_model si u).1
          = .error (.ioError "Could not create output directory")
        ∧ (run_serialization_model si u).2 = [])
    ∧ (di.list_error = none → ¬di.schema_files = [] →
        di.out_file = some e → e ∈ di.existing_dirs →
      (run_deserialization_model di v).1
          = .error (.ioError "Could not create output directory")
        ∧ (run_deserialization_model di v).2 = [])
    ∧ create_dir_all dirs dir
        = .ok (if dir ∈ dirs then dirs else dir :: dirs) := by
  refine ⟨?_, ?_, rfl⟩
  · intro h1 h2
    simp [run_serialization_model, h1, create_dir, h2]
  · intro h1 h2 h3 h4
    have hne : di.schema_files.isEmpty = false := by
      cases hsf : di.schema_files with
      | nil => exact absurd hsf h2
      | cons a l => rfl
    simp [run_deserialization_model, h1, hne, h3, create_dir, h4]

/-- C10 witness: the amended behaviour at a concrete export run and a
concrete import run whose output directory `out` already exists. -/
theorem c10_output_dir_precreated_witness :
    ((run_serialization_model
        ⟨some "out", some "json", ["out"], ["a.bdat"], none⟩
        (fun _ => .ok ())).1
          = .error (.ioError "Could not create output directory")
      ∧ (run_serialization_model
        ⟨some "out", some "json", ["out"], ["a.bdat"], none⟩
        (fun _ => .ok ())).2 = [])
    ∧ ((run_deserialization_model
        ⟨["a.bschema"], none, some "out", some "json", ["out"]⟩
        (fun _ => .ok ())).1
          = .error (.ioError "Could not create output directory")
      ∧ (run_deserialization_model
        ⟨["a.bschema"], none, some "out", some "json", ["out"]⟩
        (fun _ => .ok ())).2 = [])
    ∧ create_dir_all ["sub"] "sub"
        = .ok (if "sub" ∈ ["sub"] then ["sub"] else "sub" :: ["sub"]) :=
  ⟨(c10_output_dir_precreated_fails
      ⟨some "out", some "json", ["out"], ["a.bdat"], none⟩
      ⟨["a.bschema"], none, some "out", some "json", ["out"]⟩
      (fun _ => .ok ()) (fun _ => .ok ()) "out" "out" ["sub"] "sub").1
      rfl (by decide),
    (c10_output_dir_precreated_fails
      ⟨some "out", some "json", ["out"], ["a.bdat"], none⟩
      ⟨["a.bschema"], none, some "out", some "json", ["out"]⟩
      (fun _ => .ok ()) (fun _ => .ok ()) "out" "out" ["sub"] "sub").2.1
      rfl (by decide) rfl (by decide),
    (c10_output_dir_precreated_fails
      ⟨some "out", some "json", ["out"], ["a.bdat"], none⟩
      ⟨["a.bschema"], none, some "out", some "json", ["out"]⟩
      (fun _ => .ok ()) (fun _ => .ok ()) "out" "out" ["sub"] "sub").2.2⟩

end Bdat
